import Mathlib

/-!
# Verification of the parse-error diagnostic engine

Shallow embedding of `lib/ansible/errors/__init__.py`:
`AnsibleError._get_error_lines_from_file` (the context resolver) and
`AnsibleError._get_extended_error` (the heuristic classifier).

Lines of the file and all line fragments are modelled as `List Char`;
Python exceptions that can arise inside the engine are the `PyErr` type;
the file system is a total map from file names to a read outcome.
-/

set_option autoImplicit false

namespace AnsibleErrors

/-- Python whitespace characters (the ASCII ones recognised by `str.strip`,
`str.rstrip` and the regex class `\s`). -/
def isSpaceChar (c : Char) : Bool :=
  c = ' ' || c = '\t' || c = '\n' || c = '\r' || c = '\x0b' || c = '\x0c'

/-- `line.strip()` is falsy iff every character is whitespace. -/
def isBlank (l : List Char) : Bool := l.all isSpaceChar

/-- Python `str.rstrip()`: drop the maximal run of trailing whitespace. -/
def rstrip : List Char → List Char
  | [] => []
  | c :: cs =>
    match rstrip cs with
    | [] => if isSpaceChar c then [] else [c]
    | r => c :: r

/-- Python `str.strip()`: drop leading and trailing whitespace. -/
def strip (l : List Char) : List Char := rstrip (l.dropWhile isSpaceChar)

/-- Exceptions that the engine's code can raise internally. -/
inductive PyErr
  | ioError
  | typeError
  | indexError
deriving DecidableEq

deriving instance DecidableEq for Except

/-- Python sequence indexing `l[i]`: negative indices count from the end,
out-of-range indices raise `IndexError`. -/
def pyIdx (n : Nat) (i : Int) : Int := if i < 0 then i + n else i

/-- `l[i]` for a Python list/string, with Python's negative-index semantics. -/
def pyGet {α : Type} (l : List α) (i : Int) : Except PyErr α :=
  if 0 ≤ pyIdx l.length i then
    match l.get? (pyIdx l.length i).toNat with
    | some a => .ok a
    | none => .error .indexError
  else .error .indexError

/-- Python `str.find(c)`: index of the first occurrence, `-1` if absent. -/
def pyFind (l : List Char) (c : Char) : Int :=
  if c ∈ l then (l.indexOf c : Int) else -1

/-- Python `str.split(sep)` for a one-character separator: every occurrence
splits, empty segments are kept, and the empty string splits to `[""]`. -/
def pySplit (sep : Char) : List Char → List (List Char)
  | [] => [[]]
  | c :: cs =>
    match pySplit sep cs with
    | [] => [[c]]
    | h :: t => if c = sep then [] :: h :: t else (c :: h) :: t

theorem pyGet_ok_lb {α : Type} (l : List α) (i : Int) (a : α)
    (h : pyGet l i = .ok a) : -(l.length : Int) ≤ i := by
  unfold pyGet pyIdx at h
  by_cases hi : i < 0
  · rw [if_pos hi] at h
    split at h
    · omega
    · simp at h
  · omega

theorem pyGet_ok_mem {α : Type} (l : List α) (i : Int) (a : α)
    (h : pyGet l i = .ok a) : a ∈ l := by
  unfold pyGet at h
  split at h
  · cases hg : l.get? (pyIdx l.length i).toNat with
    | none => rw [hg] at h; simp at h
    | some b =>
      rw [hg] at h
      simp only [Except.ok.injEq] at h
      subst h
      exact List.get?_mem hg
  · simp at h

/-- One read outcome per file: an I/O failure, a wrong-type path
(`TypeError` from `open`), or the list of the file's lines. -/
inductive FileResult
  | ioError
  | typeError
  | content (lines : List (List Char))

/-- The file system as seen by one diagnostic request. -/
def FS : Type := List Char → FileResult

/-- The backward blank-line walk of `_get_error_lines_from_file`, with an
explicit step budget (`none` = budget exhausted; `walkBack` always supplies
a sufficient budget, so the `none` case is unreachable there). -/
def walkBackAux (lines : List (List Char)) : Nat → Int → Option (Except PyErr (Int × List Char))
  | 0, _ => none
  | fuel + 1, i =>
    match pyGet lines i with
    | .error e => some (.error e)
    | .ok t => if isBlank t then walkBackAux lines fuel (i - 1) else some (.ok (i, t))

theorem walkBackAux_isSome (lines : List (List Char)) :
    ∀ fuel : Nat, ∀ i : Int, (i + lines.length + 1).toNat < fuel →
      (walkBackAux lines fuel i).isSome = true := by
  intro fuel
  induction fuel with
  | zero => intro i h; omega
  | succ f ih =>
    intro i h
    unfold walkBackAux
    cases hp : pyGet lines i with
    | error e => simp
    | ok t =>
      by_cases hb : isBlank t
      · have hlb := pyGet_ok_lb lines i t hp
        simp only [hb, if_true]
        exact ih (i - 1) (by omega)
      · simp [hb]

/-- `target_line = lines[line_number]; while not target_line.strip(): …`.
Returns the final index together with the line found there, or the
`IndexError` the walk runs into. -/
def walkBack (lines : List (List Char)) (i : Int) : Except PyErr (Int × List Char) :=
  (walkBackAux lines ((i + lines.length + 1).toNat + 1) i).get
    (walkBackAux_isSome lines _ i (Nat.lt_succ_self _))

theorem walkBack_eq_some (lines : List (List Char)) (i : Int)
    (r : Except PyErr (Int × List Char)) (h : walkBack lines i = r) :
    walkBackAux lines ((i + lines.length + 1).toNat + 1) i = some r := by
  unfold walkBack at h
  rw [← h]
  exact (Option.some_get _).symm

theorem walkBackAux_ok (lines : List (List Char)) :
    ∀ fuel : Nat, ∀ i j : Int, ∀ t : List Char,
      walkBackAux lines fuel i = some (.ok (j, t)) →
      j ≤ i ∧ pyGet lines j = .ok t ∧ isBlank t = false := by
  intro fuel
  induction fuel with
  | zero => intro i j t h; simp [walkBackAux] at h
  | succ f ih =>
    intro i j t h
    unfold walkBackAux at h
    cases hp : pyGet lines i with
    | error e => rw [hp] at h; simp at h
    | ok u =>
      rw [hp] at h
      have h' : (if isBlank u = true then walkBackAux lines f (i - 1)
          else some (.ok (i, u))) = some (.ok (j, t)) := h
      by_cases hb : isBlank u = true
      · rw [if_pos hb] at h'
        obtain ⟨h1, h2, h3⟩ := ih (i - 1) j t h'
        exact ⟨by omega, h2, h3⟩
      · rw [if_neg hb] at h'
        simp only [Option.some.injEq, Except.ok.injEq, Prod.mk.injEq] at h'
        obtain ⟨h1, h2⟩ := h'
        subst h1; subst h2
        exact ⟨le_refl _, hp, by simpa using hb⟩

theorem walkBack_ok (lines : List (List Char)) (i j : Int) (t : List Char)
    (h : walkBack lines i = .ok (j, t)) :
    j ≤ i ∧ pyGet lines j = .ok t ∧ isBlank t = false :=
  walkBackAux_ok lines _ i j t (walkBack_eq_some lines i _ h)

/-- The body of `_get_error_lines_from_file` once the file's lines are in
hand: clamp an overlarge line number to the last line, walk backward over
blank lines, and fetch the preceding line when the final index is `> 0`. -/
def resolveLines (lines : List (List Char)) (line_number : Int) :
    Except PyErr (List Char × List Char) :=
  match walkBack lines
      (if (lines.length : Int) ≤ line_number then (lines.length : Int) - 1 else line_number) with
  | .error e => .error e
  | .ok (j, target) =>
    if 0 < j then
      match pyGet lines (j - 1) with
      | .error e => .error e
      | .ok prev => .ok (target, prev)
    else .ok (target, [])

/-- `AnsibleError._get_error_lines_from_file`: open the file (the `FS` map
decides the outcome) and resolve the error context from its lines. -/
def getErrorLinesFromFile (fs : FS) (file_name : List Char) (line_number : Int) :
    Except PyErr (List Char × List Char) :=
  match fs file_name with
  | .ioError => .error .ioError
  | .typeError => .error .typeError
  | .content lines => resolveLines lines line_number

/-! ## The heuristic classifier `_get_extended_error` -/

/-- Python regex `\w` (ASCII part: the inputs of interest are ASCII). -/
def isWordChar (c : Char) : Bool := c.isAlphanum || c = '_'

/-- Matching the shorthand regex (one or more word characters, optional
whitespace, `=`, optional whitespace, one or more word, slash or hyphen
characters) anchored at the head of the list. Since `\w`, `\s`, `=` are
pairwise disjoint character classes, the greedy maximal-munch match is
exact. -/
def matchKV : List Char → Bool
  | [] => false
  | c :: cs =>
    isWordChar c &&
      (match (cs.dropWhile isWordChar).dropWhile isSpaceChar with
       | e :: r3 =>
         e = '=' &&
           (match r3.dropWhile isSpaceChar with
            | d :: _ => isWordChar d || d = '/' || d = '-'
            | [] => false)
       | [] => false)

/-- `re.search` with the shorthand pattern: the pattern matches starting at
some position of the line. -/
def reSearchKV : List Char → Bool
  | [] => false
  | c :: cs => matchKV (c :: cs) || reSearchKV cs

/-- `pat in s` for Python strings: `pat` occurs as a contiguous substring. -/
def startsWith : List Char → List Char → Bool
  | [], _ => true
  | _ :: _, [] => false
  | a :: as, b :: bs => a = b && startsWith as bs

def hasSubstr (pat : List Char) : List Char → Bool
  | [] => decide (pat = [])
  | c :: cs => startsWith pat (c :: cs) || hasSubstr pat cs

/-- The nine fixed tail messages of the diagnostic, as an enumerated set.
Modelled from the spec: the wording lives in `ansible/errors/yaml_strings.py`,
which is not among the given sources; the spec requires only that the set of
distinct tail messages be reproduced as an enumerated outcome set.
`cannotOpen` and `lineGone` are the two fallback sentences and are kept in a
separate field of the diagnostic. -/
inductive YamlNote
  | shorthandMixed
  | leadingTab
  | unquotedVariable
  | commonDict
  | unquotedColon
  | partlyQuoted
  | unbalancedQuotes
deriving DecidableEq

/-- The two fallback sentences produced by the `except` clauses:
`(could not open file to display line)` and
`(specified line no longer in file, maybe it changed?)`. -/
inductive Fallback
  | cannotOpen
  | lineGone
deriving DecidableEq

/-- The `except (IOError, TypeError)` clause renders `cannotOpen`; the
`except IndexError` clause renders `lineGone`. -/
def errToFallback : PyErr → Fallback
  | .ioError => .cannotOpen
  | .typeError => .cannotOpen
  | .indexError => .lineGone

/-- The offending-line/caret block: the shorthand branch shows the
right-stripped `prev_line` with the caret at the `=` offset; the standard
branch shows `prev_line`, `target_line` (both right-stripped) with the caret
at `col_number - 1`. -/
inductive Block
  | shorthand (offending : List Char) (caret : Int)
  | standard (prev target : List Char) (caret : Int)
deriving DecidableEq

/-- The structure of the string `_get_extended_error` assembles: the
positional header `(src_file, line, column)`, the optional offending-line
block, the heuristic notes in emission order, and the optional trailing
fallback sentence appended by an `except` clause. -/
structure Diagnostic where
  file : List Char
  line : Int
  col : Int
  block : Option Block
  notes : List YamlNote
  fallback : Option Fallback
deriving DecidableEq

/-- `('{{' in target_line and '}}' in target_line) and
('"{{' not in target_line or "'{{" not in target_line)`. -/
def unquotedVarCond (t : List Char) : Bool :=
  (hasSubstr "\x7b\x7b".data t && hasSubstr "\x7d\x7d".data t) &&
    (!hasSubstr "\"\x7b\x7b".data t || !hasSubstr "'\x7b\x7b".data t)

/-- `":{{" in stripped_line and "}}" in stripped_line`. -/
def dictCond (s : List Char) : Bool :=
  hasSubstr ":\x7b\x7b".data s && hasSubstr "\x7d\x7d".data s

/-- The unquoted-colon condition, evaluated left to right with Python's
short-circuiting; `target_line[col_number]` can raise `IndexError` when
`col_number` is negative beyond `-len(target_line)`. -/
def colonCondE (t : List Char) (col : Int) : Except PyErr Bool :=
  if t.length ≠ 0 ∧ 1 < t.length ∧ col < (t.length : Int) then
    match pyGet t col with
    | .error e => .error e
    | .ok c => .ok (c = ':' && decide (1 < t.count ':'))
  else .ok false

def isQuoteChar (c : Char) : Bool := c = '"' || c = '\''

def headIs (l : List Char) (c : Char) : Bool :=
  match l with
  | x :: _ => x = c
  | [] => false

def lastIs (l : List Char) (c : Char) : Bool :=
  match l.getLast? with
  | some x => x = c
  | none => false

/-- The final `else` of the check chain: split `target_line` on `:`, take the
stripped second segment, and evaluate the partially-quoted condition and the
unbalanced-quotes condition (the latter with Python's operator precedence:
the `count('"') > 2` disjunct stands alone). -/
def quoteNotes (t : List Char) : List YamlNote :=
  match pySplit ':' t with
  | _ :: middle0 :: _ =>
    let middle := strip middle0
    let partly := (headIs middle '\'' && !lastIs middle '\'') ||
      (headIs middle '"' && !lastIs middle '"')
    let unbalanced :=
      (decide (middle ≠ []) && isQuoteChar (middle.headD ' ') &&
        isQuoteChar (middle.getLastD ' ') && decide (2 < t.count '\'')) ||
      decide (2 < t.count '"')
    (if partly then [YamlNote.partlyQuoted] else []) ++
      (if unbalanced then [YamlNote.unbalancedQuotes] else [])
  | _ => []

/-- `if '\t' in target_line: …` — evaluated on every resolved context,
independently of the chain that follows. -/
def tabNotes (t : List Char) : List YamlNote :=
  if t.contains '\t' then [YamlNote.leadingTab] else []

/-- The `if/elif/elif/else` chain over `target_line` (with `stripped_line`
the space-free copy): unquoted variable, dict marker, unquoted colon, and
otherwise the quote checks. Returns the emitted notes and, when the colon
check's indexing raises, the fallback the enclosing `except` turns it into
(the notes emitted before the raise are kept). -/
def chainResult (t s : List Char) (col : Int) : List YamlNote × Option Fallback :=
  if unquotedVarCond t then ([YamlNote.unquotedVariable], none)
  else if dictCond s then ([YamlNote.commonDict], none)
  else
    match colonCondE t col with
    | .error e => ([], some (errToFallback e))
    | .ok true => ([YamlNote.unquotedColon], none)
    | .ok false => (quoteNotes t, none)

/-- `stripped_line = target_line.replace(" ", "")`. -/
def strippedLine (t : List Char) : List Char := t.filter (fun c => c ≠ ' ')

/-- The classifier body once the context `(target_line, prev_line)` has been
resolved: nothing beyond the header if `target_line` is empty; otherwise the
shorthand check against `prev_line` decides whether the header is rewritten
and which block is shown, after which the tab check and the chain run in
both cases (they are not skipped by the shorthand branch). -/
def classifyContext (src : List Char) (ln col : Int) (t p : List Char) : Diagnostic :=
  if t = [] then ⟨src, ln, col, none, [], none⟩
  else if reSearchKV p then
    ⟨src, ln - 1, pyFind (rstrip p) '=' + 1,
      some (Block.shorthand (rstrip p) (pyFind (rstrip p) '=')),
      YamlNote.shorthandMixed ::
        (tabNotes t ++ (chainResult t (strippedLine t) col).1),
      (chainResult t (strippedLine t) col).2⟩
  else
    ⟨src, ln, col,
      some (Block.standard (rstrip p) (rstrip t) (col - 1)),
      tabNotes t ++ (chainResult t (strippedLine t) col).1,
      (chainResult t (strippedLine t) col).2⟩

/-- `AnsibleError._get_extended_error`, for an error object whose
`ansible_pos` is `(src_file, line_number, col_number)` and whose
`_show_content` flag is `show_content`. The header is emitted first; file
access happens only past the sentinel/`show_content` guard; every `PyErr`
raised inside is caught and rendered as a fallback sentence appended to the
text accumulated so far. -/
def getExtendedError (fs : FS) (src_file : List Char) (line_number col_number : Int)
    (show_content : Bool) : Diagnostic :=
  if (src_file ≠ "<string>".data ∧ src_file ≠ "<unicode>".data) ∧ show_content = true then
    match getErrorLinesFromFile fs src_file (line_number - 1) with
    | .error e => ⟨src_file, line_number, col_number, none, [], some (errToFallback e)⟩
    | .ok (t, p) => classifyContext src_file line_number col_number t p
  else ⟨src_file, line_number, col_number, none, [], none⟩

/-! ## Helper lemmas -/

theorem pyGet_error {α : Type} (l : List α) (i : Int) (e : PyErr)
    (h : pyGet l i = .error e) : e = .indexError := by
  unfold pyGet at h
  split at h
  · split at h <;> simp_all
  · simp_all

theorem rstrip_cons (c : Char) (cs : List Char) :
    rstrip (c :: cs) =
      match rstrip cs with
      | [] => if isSpaceChar c then [] else [c]
      | r => c :: r := rfl

theorem rstrip_append (xs zs : List Char) (d : Char) (hd : isSpaceChar d = false) :
    rstrip (xs ++ d :: zs) = xs ++ d :: rstrip zs := by
  induction xs with
  | nil =>
    simp only [List.nil_append]
    rw [rstrip_cons]
    cases h : rstrip zs with
    | nil => simp [hd]
    | cons a l => rfl
  | cons x xs ih =>
    simp only [List.cons_append]
    rw [rstrip_cons, ih]
    cases hx : xs ++ d :: rstrip zs with
    | nil => exact absurd hx (by simp)
    | cons a l => rfl

theorem word_slash_not_space (d : Char)
    (h : (isWordChar d || d = '/' || d = '-') = true) : isSpaceChar d = false := by
  by_contra hs
  rw [Bool.not_eq_false] at hs
  unfold isSpaceChar at hs
  simp only [Bool.or_eq_true, decide_eq_true_eq] at hs
  rcases hs with ((((h1 | h2) | h3) | h4) | h5) | h6 <;> subst_vars <;> revert h <;> decide

theorem matchKV_decomp (b : List Char) (h : matchKV b = true) :
    ∃ xs d zs, b = xs ++ d :: zs ∧ isSpaceChar d = false ∧ '=' ∈ xs := by
  cases b with
  | nil => simp [matchKV] at h
  | cons c cs =>
    unfold matchKV at h
    rw [Bool.and_eq_true] at h
    obtain ⟨hc, h2⟩ := h
    cases h3 : (cs.dropWhile isWordChar).dropWhile isSpaceChar with
    | nil => rw [h3] at h2; simp at h2
    | cons e r3 =>
      rw [h3] at h2
      have h2' : (decide (e = '=') &&
          (match r3.dropWhile isSpaceChar with
           | d :: _ => isWordChar d || d = '/' || d = '-'
           | [] => false)) = true := h2
      rw [Bool.and_eq_true, decide_eq_true_eq] at h2'
      obtain ⟨he, h4⟩ := h2'
      subst he
      cases h5 : r3.dropWhile isSpaceChar with
      | nil => rw [h5] at h4; simp at h4
      | cons d tail =>
        rw [h5] at h4
        have hd : isSpaceChar d = false := word_slash_not_space d h4
        refine ⟨c :: (cs.takeWhile isWordChar ++
            ((cs.dropWhile isWordChar).takeWhile isSpaceChar ++
              ('=' :: r3.takeWhile isSpaceChar))), d, tail, ?_, hd, ?_⟩
        · have hcs1 := List.takeWhile_append_dropWhile (p := isWordChar) (l := cs)
          have hcs2 := List.takeWhile_append_dropWhile (p := isSpaceChar)
            (l := cs.dropWhile isWordChar)
          have hr3 := List.takeWhile_append_dropWhile (p := isSpaceChar) (l := r3)
          conv_lhs => rw [← hcs1, ← hcs2, h3, ← hr3, h5]
          simp [List.append_assoc]
        · simp

theorem reSearchKV_ne_nil (p : List Char) (h : reSearchKV p = true) : p ≠ [] := by
  intro hp
  subst hp
  simp [reSearchKV] at h

theorem reSearchKV_decomp (p : List Char) (h : reSearchKV p = true) :
    ∃ a b, p = a ++ b ∧ matchKV b = true := by
  induction p with
  | nil => simp [reSearchKV] at h
  | cons c cs ih =>
    unfold reSearchKV at h
    rw [Bool.or_eq_true] at h
    rcases h with h | h
    · exact ⟨[], c :: cs, rfl, h⟩
    · obtain ⟨a, b, hab, hm⟩ := ih h
      exact ⟨c :: a, b, by rw [hab]; rfl, hm⟩

theorem reSearchKV_eq_mem (p : List Char) (h : reSearchKV p = true) :
    '=' ∈ rstrip p := by
  obtain ⟨a, b, hab, hm⟩ := reSearchKV_decomp p h
  obtain ⟨xs, d, zs, hb, hd, hx⟩ := matchKV_decomp b hm
  subst hab
  subst hb
  rw [show a ++ (xs ++ d :: zs) = (a ++ xs) ++ d :: zs by simp]
  rw [rstrip_append (a ++ xs) zs d hd]
  exact List.mem_append_left _ (List.mem_append_right a hx)

theorem reSearchKV_find_nonneg (p : List Char) (h : reSearchKV p = true) :
    0 ≤ pyFind (rstrip p) '=' := by
  unfold pyFind
  rw [if_pos (reSearchKV_eq_mem p h)]
  exact Int.natCast_nonneg _

theorem resolveLines_ok (lines : List (List Char)) (n : Int) (t p : List Char)
    (h : resolveLines lines n = .ok (t, p)) :
    ∃ j : Int,
      walkBack lines (if (lines.length : Int) ≤ n then (lines.length : Int) - 1 else n) =
        .ok (j, t) ∧ (p ≠ [] → 0 < j) := by
  unfold resolveLines at h
  cases hw : walkBack lines
      (if (lines.length : Int) ≤ n then (lines.length : Int) - 1 else n) with
  | error e => rw [hw] at h; simp at h
  | ok jt =>
    obtain ⟨j, t'⟩ := jt
    rw [hw] at h
    have h' : (if 0 < j then
        match pyGet lines (j - 1) with
        | .error e => .error e
        | .ok prev => .ok (t', prev)
      else .ok (t', ([] : List Char))) = Except.ok (t, p) := h
    by_cases hj : 0 < j
    · rw [if_pos hj] at h'
      cases hg : pyGet lines (j - 1) with
      | error e => rw [hg] at h'; simp at h'
      | ok prev =>
        rw [hg] at h'
        simp only [Except.ok.injEq, Prod.mk.injEq] at h'
        obtain ⟨h1, h2⟩ := h'
        subst h1
        exact ⟨j, rfl, fun _ => hj⟩
    · rw [if_neg hj] at h'
      simp only [Except.ok.injEq, Prod.mk.injEq] at h'
      obtain ⟨h1, h2⟩ := h'
      subst h1
      exact ⟨j, rfl, fun hp => absurd h2.symm hp⟩

theorem resolveLines_ok_nonblank (lines : List (List Char)) (n : Int) (t p : List Char)
    (h : resolveLines lines n = .ok (t, p)) : isBlank t = false := by
  obtain ⟨j, hw, _⟩ := resolveLines_ok lines n t p h
  exact (walkBack_ok lines _ j t hw).2.2

theorem resolveLines_ok_mem (lines : List (List Char)) (n : Int) (t p : List Char)
    (h : resolveLines lines n = .ok (t, p)) : t ∈ lines := by
  obtain ⟨j, hw, _⟩ := resolveLines_ok lines n t p h
  exact pyGet_ok_mem lines j t (walkBack_ok lines _ j t hw).2.1

theorem resolveLines_prev_ne (lines : List (List Char)) (n : Int) (t p : List Char)
    (h : resolveLines lines n = .ok (t, p)) (hp : p ≠ []) :
    1 ≤ if (lines.length : Int) ≤ n then (lines.length : Int) - 1 else n := by
  obtain ⟨j, hw, hj⟩ := resolveLines_ok lines n t p h
  have h1 := (walkBack_ok lines _ j t hw).1
  have h2 := hj hp
  omega

theorem walkBackAux_all_blank (lines : List (List Char))
    (hall : ∀ l ∈ lines, isBlank l = true) :
    ∀ fuel : Nat, ∀ i : Int, ∀ r, walkBackAux lines fuel i = some r →
      r = .error .indexError := by
  intro fuel
  induction fuel with
  | zero => intro i r h; simp [walkBackAux] at h
  | succ f ih =>
    intro i r h
    unfold walkBackAux at h
    cases hp : pyGet lines i with
    | error e =>
      rw [hp] at h
      simp only [Option.some.injEq] at h
      rw [← h, pyGet_error lines i e hp]
    | ok t =>
      rw [hp] at h
      have hb : isBlank t = true := hall t (pyGet_ok_mem lines i t hp)
      have h' : (if isBlank t = true then walkBackAux lines f (i - 1)
          else some (.ok (i, t))) = some r := h
      rw [if_pos hb] at h'
      exact ih (i - 1) r h'

theorem resolveLines_all_blank (lines : List (List Char))
    (hall : ∀ l ∈ lines, isBlank l = true) (n : Int) :
    resolveLines lines n = .error .indexError := by
  unfold resolveLines
  cases hw : walkBack lines
      (if (lines.length : Int) ≤ n then (lines.length : Int) - 1 else n) with
  | error e =>
    have h1 := walkBackAux_all_blank lines hall _ _ _ (walkBack_eq_some _ _ _ hw)
    simp only [Except.error.injEq] at h1
    rw [h1]
  | ok jt =>
    obtain ⟨j, t⟩ := jt
    obtain ⟨_, hg, hb⟩ := walkBack_ok lines _ j t hw
    rw [hall t (pyGet_ok_mem lines j t hg)] at hb
    simp at hb

theorem any_not_of_all_false (l : List Char) (q : Char → Bool) (h : l.all q = false) :
    l.any (fun c => !q c) = true := by
  by_contra hany
  rw [Bool.not_eq_true, List.any_eq_false] at hany
  have hall : l.all q = true := by
    rw [List.all_eq_true]
    intro c hc
    have := hany c hc
    simpa using this
  rw [hall] at h
  simp at h

/-! ## Concrete file systems used as test inputs -/

/-- A file whose first line is `k=v` shorthand and whose second line holds a
tab character. -/
def fsShorthandTab : FS := fun _ => .content ["foo = bar\n".data, "\tx\n".data]

/-- A file whose second line holds an unquoted-variable marker that also
satisfies the partially-quoted condition of the quote check. -/
def fsUnquotedVar : FS := fun _ => .content ["x\n".data, "a: '{{ y }}\n".data]

/-- A file whose second line has more than two double quotes but a `middle`
segment that does not start with a quote character. -/
def fsQuoteCount : FS := fun _ => .content ["x\n".data, "a: b \"c\" \"d\" \"e\"\n".data]

/-- A file whose first line is blank and whose second line is code. -/
def fsBlankThenCode : FS := fun _ => .content ["\n".data, "x\n".data]

/-- A file all of whose lines are blank. -/
def fsAllBlank : FS := fun _ => .content ["\n".data, "   \n".data]

/-- A file system on which every open fails with an I/O error. -/
def fsReadFail : FS := fun _ => .ioError

/-! ## The claims -/

/-- C1, counterexample. A request whose `prev_line` is the shorthand line
`foo = bar` and whose `target_line` holds a tab: the classifier rewrites the
header and emits the shorthand-mixed note, but — contrary to the claim that
it returns immediately and no Step-3 check runs — the leading-tab note of
Step 3 is appended as well, so the output does not contain exactly one
heuristic note. -/
theorem C1_counterexample :
    getExtendedError fsShorthandTab "f".data 2 1 true =
      ⟨"f".data, 1, 5, some (Block.shorthand ("foo = bar".data) 4),
        [YamlNote.shorthandMixed, YamlNote.leadingTab], none⟩ := by decide

/-- C1, amended. When the shorthand pattern matches `prev_line` (and the
context resolved with a nonempty `target_line`), the classifier rewrites the
positional header to `line_number - 1` and the `=`-offset column, shows the
right-stripped `prev_line` with the caret at the `=` offset, and emits the
shorthand-mixed note first — but it does not return: the Step-3 checks
(tab and the unquoted-variable/dict/colon/quote chain) still run against
`target_line` and their notes follow the shorthand note. -/
theorem C1_amended (fs : FS) (src : List Char) (ln col : Int) (t p : List Char)
    (hg : src ≠ "<string>".data ∧ src ≠ "<unicode>".data)
    (hres : getErrorLinesFromFile fs src (ln - 1) = .ok (t, p))
    (ht : t ≠ [])
    (hsh : reSearchKV p = true) :
    getExtendedError fs src ln col true =
      ⟨src, ln - 1, pyFind (rstrip p) '=' + 1,
        some (Block.shorthand (rstrip p) (pyFind (rstrip p) '=')),
        YamlNote.shorthandMixed ::
          (tabNotes t ++ (chainResult t (strippedLine t) col).1),
        (chainResult t (strippedLine t) col).2⟩ := by
  unfold getExtendedError
  rw [if_pos ⟨hg, rfl⟩, hres]
  show classifyContext src ln col t p = _
  unfold classifyContext
  rw [if_neg ht, if_pos hsh]

/-- C1, witness for the amended theorem at the concrete shorthand request. -/
theorem C1_amended_witness :
    getExtendedError fsShorthandTab "f".data 2 1 true =
      ⟨"f".data, 2 - 1, pyFind (rstrip ("foo = bar\n".data)) '=' + 1,
        some (Block.shorthand (rstrip ("foo = bar\n".data))
          (pyFind (rstrip ("foo = bar\n".data)) '=')),
        YamlNote.shorthandMixed ::
          (tabNotes ("\tx\n".data) ++
            (chainResult ("\tx\n".data)
              (strippedLine ("\tx\n".data)) 1).1),
        (chainResult ("\tx\n".data)
          (strippedLine ("\tx\n".data)) 1).2⟩ :=
  C1_amended fsShorthandTab "f".data 2 1 ("\tx\n".data) ("foo = bar\n".data)
    (by decide) (by decide) (by decide) (by decide)

/-- C2, counterexample. On target line `a: '{{ y }}` the partially-quoted
condition of the quote-balance check holds, yet the rendered output carries
only the unquoted-variable note: the quote-balance check sits in the `else`
of the chain and is not evaluated once the unquoted-variable check fired,
contradicting the claim that it runs independently on every non-shorthand
request. -/
theorem C2_counterexample :
    quoteNotes ("a: '{{ y }}\n".data) = [YamlNote.partlyQuoted] ∧
    getExtendedError fsUnquotedVar "f".data 2 2 true =
      ⟨"f".data, 2, 2, some (Block.standard "x".data ("a: '{{ y }}".data) 1),
        [YamlNote.unquotedVariable], none⟩ := by decide

/-- C2, amended. The quote-balance check is the final `else` of the check
chain: when the unquoted-variable, dict-marker or unquoted-colon check
fires, its notes are never appended, and the chain's notes are exactly that
single earlier note. -/
theorem C2_amended (t s : List Char) (col : Int)
    (h : unquotedVarCond t = true ∨ dictCond s = true ∨ colonCondE t col = .ok true) :
    YamlNote.partlyQuoted ∉ (chainResult t s col).1 ∧
    YamlNote.unbalancedQuotes ∉ (chainResult t s col).1 ∧
    ((chainResult t s col).1 = [YamlNote.unquotedVariable] ∨
      (chainResult t s col).1 = [YamlNote.commonDict] ∨
      (chainResult t s col).1 = [YamlNote.unquotedColon]) := by
  unfold chainResult
  rcases h with h | h | h
  · rw [if_pos h]
    simp
  · by_cases h1 : unquotedVarCond t = true
    · rw [if_pos h1]
      simp
    · rw [if_neg h1, if_pos h]
      simp
  · by_cases h1 : unquotedVarCond t = true
    · rw [if_pos h1]
      simp
    · rw [if_neg h1]
      by_cases h2 : dictCond s = true
      · rw [if_pos h2]
        simp
      · rw [if_neg h2, h]
        simp

/-- C2, witness for the amended theorem on the unquoted-variable line. -/
theorem C2_amended_witness :
    YamlNote.partlyQuoted ∉ (chainResult ("a: '{{ y }}\n".data)
        (strippedLine ("a: '{{ y }}\n".data)) 2).1 ∧
    YamlNote.unbalancedQuotes ∉ (chainResult ("a: '{{ y }}\n".data)
        (strippedLine ("a: '{{ y }}\n".data)) 2).1 ∧
    ((chainResult ("a: '{{ y }}\n".data)
        (strippedLine ("a: '{{ y }}\n".data)) 2).1 =
          [YamlNote.unquotedVariable] ∨
      (chainResult ("a: '{{ y }}\n".data)
        (strippedLine ("a: '{{ y }}\n".data)) 2).1 =
          [YamlNote.commonDict] ∨
      (chainResult ("a: '{{ y }}\n".data)
        (strippedLine ("a: '{{ y }}\n".data)) 2).1 =
          [YamlNote.unquotedColon]) :=
  C2_amended ("a: '{{ y }}\n".data)
    (strippedLine ("a: '{{ y }}\n".data)) 2 (Or.inl (by decide))

/-- C3. Evaluating the code at the failing input: on target line
`a: b "c" "d" "e"` the `middle` segment starts with `b`, not a quote
character, yet the unbalanced-quotes note is emitted, because in the source
the `count('"') > 2` clause stands alone under Python's operator precedence
instead of being grouped under the conjunction as the claim (and the
documented intent) states. -/
theorem C3_code_bug_eval :
    getExtendedError fsQuoteCount "f".data 3 1 true =
      ⟨"f".data, 3, 1,
        some (Block.standard "x".data ("a: b \"c\" \"d\" \"e\"".data) 0),
        [YamlNote.unbalancedQuotes], none⟩ ∧
    (strip ((pySplit ':' ("a: b \"c\" \"d\" \"e\"\n".data)).getD 1 [])).headD ' ' = 'b' ∧
    isQuoteChar 'b' = false := by decide

/-- C4, counterexample. A two-line file whose first line is blank and whose
second line is `x`: for the request targeting line index `0` (whose clamped
target line and every line at or before it are blank), the backward walk
does not produce an indexing failure — Python's negative indexing wraps
around and the resolver returns the line `x` taken from elsewhere in the
file (index 1, after the requested line), with an empty `prev_line`. -/
theorem C4_counterexample :
    isBlank ("\n".data) = true ∧
    getErrorLinesFromFile fsBlankThenCode "f".data 0 = .ok ("x\n".data, []) := by decide

/-- C4, amended. The backward walk underflows into an indexing failure —
which the classifier converts into the fixed `specified line no longer in
file` fallback sentence appended to the header — exactly on files all of
whose lines are blank; when some line of the file is non-blank, negative
indexing wraps the walk around to the end of the file instead, and it
returns a non-blank line possibly taken from elsewhere in the file. -/
theorem C4_amended (fs : FS) (src : List Char) (ln col : Int)
    (lines : List (List Char))
    (hg : src ≠ "<string>".data ∧ src ≠ "<unicode>".data)
    (hfs : fs src = .content lines)
    (hall : ∀ l ∈ lines, isBlank l = true) :
    getExtendedError fs src ln col true =
      ⟨src, ln, col, none, [], some Fallback.lineGone⟩ := by
  have hres : getErrorLinesFromFile fs src (ln - 1) = .error .indexError := by
    unfold getErrorLinesFromFile
    rw [hfs]
    exact resolveLines_all_blank lines hall (ln - 1)
  unfold getExtendedError
  rw [if_pos ⟨hg, rfl⟩, hres]
  rfl

/-- C4, witness for the amended theorem on an all-blank two-line file. -/
theorem C4_amended_witness :
    getExtendedError fsAllBlank "f".data 2 1 true =
      ⟨"f".data, 2, 1, none, [], some Fallback.lineGone⟩ :=
  C4_amended fsAllBlank "f".data 2 1 ["\n".data, "   \n".data]
    (by decide) rfl (by decide)

/-- C5. Every failure inside the engine is caught and rendered as
user-visible fallback text: whichever `PyErr` the context resolution raises
(I/O error, wrong-type path, or index underflow), the classifier returns
the positional header with the corresponding fallback sentence; and when
the colon check's indexing raises past the resolved context, the returned
diagnostic again carries the rendered fallback. The engine itself is a
total function into `Diagnostic` — no exception passes its boundary. -/
theorem C5_failures_rendered (fs : FS) (src : List Char) (ln col : Int)
    (hg : src ≠ "<string>".data ∧ src ≠ "<unicode>".data) :
    (∀ e, getErrorLinesFromFile fs src (ln - 1) = .error e →
        getExtendedError fs src ln col true =
          ⟨src, ln, col, none, [], some (errToFallback e)⟩) ∧
    (∀ t p e, getErrorLinesFromFile fs src (ln - 1) = .ok (t, p) → t ≠ [] →
        unquotedVarCond t = false →
        dictCond (strippedLine t) = false →
        colonCondE t col = .error e →
        (getExtendedError fs src ln col true).fallback = some (errToFallback e)) := by
  constructor
  · intro e he
    unfold getExtendedError
    rw [if_pos ⟨hg, rfl⟩, he]
  · intro t p e hok ht h1 h2 h3
    unfold getExtendedError
    rw [if_pos ⟨hg, rfl⟩, hok]
    show (classifyContext src ln col t p).fallback = _
    unfold classifyContext
    rw [if_neg ht]
    have hch : (chainResult t (strippedLine t) col).2 =
        some (errToFallback e) := by
      unfold chainResult
      rw [if_neg (by simp [h1]), if_neg (by simp [h2]), h3]
    by_cases hsh : reSearchKV p = true
    · rw [if_pos hsh]
      exact hch
    · rw [if_neg hsh]
      exact hch

/-- C5, witness: a failing open is rendered as the cannot-open fallback. -/
theorem C5_failures_rendered_witness :
    getExtendedError fsReadFail "f".data 4 2 true =
      ⟨"f".data, 4, 2, none, [], some (errToFallback PyErr.ioError)⟩ :=
  (C5_failures_rendered fsReadFail "f".data 4 2 (by decide)).1 PyErr.ioError rfl

/-- C6. With `show_content = false`, or with one of the non-file sentinel
source identifiers, the output is exactly the positional header, and two
runs differing only in the underlying file system produce identical
output — no file content influences the message. -/
theorem C6_header_only (fs1 fs2 : FS) (src : List Char) (ln col : Int) (sc : Bool)
    (h : sc = false ∨ src = "<string>".data ∨ src = "<unicode>".data) :
    getExtendedError fs1 src ln col sc = ⟨src, ln, col, none, [], none⟩ ∧
    getExtendedError fs1 src ln col sc = getExtendedError fs2 src ln col sc := by
  have hg : ∀ fs : FS, getExtendedError fs src ln col sc =
      ⟨src, ln, col, none, [], none⟩ := by
    intro fs
    unfold getExtendedError
    rw [if_neg]
    rintro ⟨⟨h1, h2⟩, h3⟩
    rcases h with h | h | h
    · rw [h] at h3
      simp at h3
    · exact h1 h
    · exact h2 h
  exact ⟨hg fs1, by rw [hg fs1, hg fs2]⟩

/-- C6, witness: the sentinel source on two different file systems. -/
theorem C6_header_only_witness :
    getExtendedError fsShorthandTab "<string>".data 3 4 true =
      ⟨"<string>".data, 3, 4, none, [], none⟩ ∧
    getExtendedError fsShorthandTab "<string>".data 3 4 true =
      getExtendedError fsReadFail "<string>".data 3 4 true :=
  C6_header_only fsShorthandTab fsReadFail "<string>".data 3 4 true
    (Or.inr (Or.inl rfl))

/-- C7. When the unquoted-variable check fires on the resolved target line,
the dict-marker and unquoted-colon notes never appear in the output — they
sit in the `elif` chain behind it. -/
theorem C7_chain_exclusive (fs : FS) (src : List Char) (ln col : Int) (t p : List Char)
    (hg : src ≠ "<string>".data ∧ src ≠ "<unicode>".data)
    (hres : getErrorLinesFromFile fs src (ln - 1) = .ok (t, p))
    (ht : t ≠ [])
    (h1 : unquotedVarCond t = true) :
    YamlNote.commonDict ∉ (getExtendedError fs src ln col true).notes ∧
    YamlNote.unquotedColon ∉ (getExtendedError fs src ln col true).notes := by
  have hch : (chainResult t (strippedLine t) col).1 =
      [YamlNote.unquotedVariable] := by
    unfold chainResult
    rw [if_pos h1]
  have hnotes : (getExtendedError fs src ln col true).notes =
      (if reSearchKV p then [YamlNote.shorthandMixed] else []) ++
        (tabNotes t ++ [YamlNote.unquotedVariable]) := by
    unfold getExtendedError
    rw [if_pos ⟨hg, rfl⟩, hres]
    show (classifyContext src ln col t p).notes = _
    unfold classifyContext
    rw [if_neg ht]
    by_cases hsh : reSearchKV p = true
    · rw [if_pos hsh]
      simp [hsh, hch]
    · rw [if_neg hsh]
      simp only [Bool.not_eq_true] at hsh
      simp [hsh, hch]
  rw [hnotes]
  unfold tabNotes
  constructor <;> intro hmem <;> split_ifs at hmem <;> simp_all

/-- C7, witness at the unquoted-variable line `a: '{{ y }}`. -/
theorem C7_chain_exclusive_witness :
    YamlNote.commonDict ∉ (getExtendedError fsUnquotedVar "f".data 2 2 true).notes ∧
    YamlNote.unquotedColon ∉ (getExtendedError fsUnquotedVar "f".data 2 2 true).notes :=
  C7_chain_exclusive fsUnquotedVar "f".data 2 2 ("a: '{{ y }}\n".data) ("x\n".data)
    (by decide) (by decide) (by decide) (by decide)

/-- C8. For a line number at or past the file length, the resolver behaves
exactly as if the last line had been requested (the clamp to
`number_of_lines - 1`), and any line it returns is a line of the file — it
never reads past the file's contents. -/
theorem C8_clamp (lines : List (List Char)) (n : Int)
    (h : (lines.length : Int) ≤ n) :
    resolveLines lines n = resolveLines lines ((lines.length : Int) - 1) ∧
    ∀ t p, resolveLines lines n = .ok (t, p) → t ∈ lines := by
  constructor
  · unfold resolveLines
    rw [if_pos h, if_neg (by omega)]
  · intro t p hok
    exact resolveLines_ok_mem lines n t p hok

/-- C8, witness: requesting line 5 of a two-line file equals requesting its
last line, and the returned line is a line of the file. -/
theorem C8_clamp_witness :
    resolveLines ["foo = bar\n".data, "\tx\n".data] 5 =
      resolveLines ["foo = bar\n".data, "\tx\n".data]
        (((["foo = bar\n".data, "\tx\n".data] : List (List Char)).length : Int) - 1) ∧
    ∀ t p, resolveLines ["foo = bar\n".data, "\tx\n".data] 5 = .ok (t, p) →
      t ∈ (["foo = bar\n".data, "\tx\n".data] : List (List Char)) :=
  C8_clamp ["foo = bar\n".data, "\tx\n".data] 5 (by decide)

/-- C9. For every request with reported line ≥ 1 and column ≥ 1, the line
and column of the final positional header are ≥ 1 on every path, including
the shorthand path's rewritten header `(line_number - 1, '='-offset + 1)`:
a nonempty `prev_line` forces the resolved index, and hence `line_number`,
to be at least 2, and a shorthand match guarantees the `=` search on the
right-stripped `prev_line` succeeds with a nonnegative offset. -/
theorem C9_header_positive (fs : FS) (src : List Char) (ln col : Int) (sc : Bool)
    (hl : 1 ≤ ln) (hc : 1 ≤ col) :
    1 ≤ (getExtendedError fs src ln col sc).line ∧
    1 ≤ (getExtendedError fs src ln col sc).col := by
  unfold getExtendedError
  split
  case isFalse => exact ⟨hl, hc⟩
  case isTrue hguard =>
    cases hr : getErrorLinesFromFile fs src (ln - 1) with
    | error e => exact ⟨hl, hc⟩
    | ok tp =>
      obtain ⟨t, p⟩ := tp
      show 1 ≤ (classifyContext src ln col t p).line ∧
        1 ≤ (classifyContext src ln col t p).col
      unfold classifyContext
      by_cases ht : t = []
      · rw [if_pos ht]
        exact ⟨hl, hc⟩
      · rw [if_neg ht]
        by_cases hsh : reSearchKV p = true
        · rw [if_pos hsh]
          constructor
          · show 1 ≤ ln - 1
            have hp : p ≠ [] := reSearchKV_ne_nil p hsh
            unfold getErrorLinesFromFile at hr
            cases hfs : fs src with
            | ioError => rw [hfs] at hr; simp at hr
            | typeError => rw [hfs] at hr; simp at hr
            | content lines =>
              rw [hfs] at hr
              have hstart := resolveLines_prev_ne lines (ln - 1) t p hr hp
              by_cases hcl : (lines.length : Int) ≤ ln - 1
              · rw [if_pos hcl] at hstart
                omega
              · rw [if_neg hcl] at hstart
                omega
          · show 1 ≤ pyFind (rstrip p) '=' + 1
            have := reSearchKV_find_nonneg p hsh
            omega
        · rw [if_neg hsh]
          exact ⟨hl, hc⟩

/-- C9, witness at a concrete request with line 1, column 1. -/
theorem C9_header_positive_witness :
    1 ≤ (getExtendedError fsShorthandTab "f".data 1 1 true).line ∧
    1 ≤ (getExtendedError fsShorthandTab "f".data 1 1 true).col :=
  C9_header_positive fsShorthandTab "f".data 1 1 true (by decide) (by decide)

/-- C10. Whenever `_get_error_lines_from_file` returns normally, the
returned `target_line` contains at least one non-whitespace character: the
backward walk's loop only exits on a line whose `strip()` is non-empty. -/
theorem C10_target_nonblank (fs : FS) (file_name : List Char) (n : Int)
    (t p : List Char)
    (h : getErrorLinesFromFile fs file_name n = .ok (t, p)) :
    t.any (fun c => !isSpaceChar c) = true := by
  unfold getErrorLinesFromFile at h
  cases hfs : fs file_name with
  | ioError => rw [hfs] at h; simp at h
  | typeError => rw [hfs] at h; simp at h
  | content lines =>
    rw [hfs] at h
    have hb := resolveLines_ok_nonblank lines n t p h
    exact any_not_of_all_false t isSpaceChar hb

/-- C10, witness: the resolved target line `\tx` holds non-whitespace. -/
theorem C10_target_nonblank_witness :
    ("\tx\n".data).any (fun c => !isSpaceChar c) = true :=
  C10_target_nonblank fsShorthandTab "f".data 1 ("\tx\n".data) ("foo = bar\n".data)
    (by decide)

end AnsibleErrors
